import Mathlib

/-!
Shallow embedding of `global_epg_db.py` (Global EPG Downloader).

The program acquires per-country EPG XML guides: it resolves a display
name to a repository folder slug (`normalize_country_name`), tries an
ordered list of candidate filenames per source (`download_for_country`),
fetches each URL with a minimum-size filter (`try_download`), optionally
gunzips `.gz` payloads, persists the first accepted payload, and finally
builds a metadata index over the persisted guide files (`build_index`).

Effects are made explicit: the HTTP layer is an oracle
`http : String → Option Response` (`none` = transport failure / raised
exception), gzip decompression is an oracle
`gunzip : Bytes → Option Bytes` (`none` = decompression failure), and
filesystem writes are recorded as a list of events.  Python strings are
modelled as Lean `String` restricted to the ASCII fragment the program
manipulates.
-/

/-- Payload bytes, one `Nat` per byte. -/
abbrev Bytes := List Nat

/-! ## Python string helpers -/

/-- ASCII whitespace recognised by Python `str.strip()` (the inputs of this
program are ASCII country names, so the Unicode cases are irrelevant). -/
def isPySpace (c : Char) : Bool :=
  c = ' ' || c = '\t' || c = '\n' || c = '\r' || c = '\x0b' || c = '\x0c'

/-- Python `str.strip()`: drop leading and trailing whitespace. -/
def pyStrip (s : String) : String :=
  ⟨((s.toList.dropWhile isPySpace).reverse.dropWhile isPySpace).reverse⟩

/-- ASCII lower-casing of one character, as Python `str.lower()` acts on
the ASCII strings used here. -/
def lowerChar (c : Char) : Char :=
  if 'A' ≤ c ∧ c ≤ 'Z' then Char.ofNat (c.toNat + 32) else c

/-- Python `str.lower()` on ASCII strings. -/
def pyLower (s : String) : String := ⟨s.toList.map lowerChar⟩

/-- Python `name.replace(" ", "").replace(".", "")`: removing every
occurrence of a character with `replace` is the same as filtering it out. -/
def removeSpacesPeriods (s : String) : String :=
  ⟨s.toList.filter (fun c => !(c = ' ' || c = '.'))⟩

/-! ## Name Resolver (`normalize_country_name`, lines 64-89) -/

/-- The `slug_map` override table, verbatim from the source. -/
def slug_map : List (String × String) :=
  [("Bosnia and Herzegovina", "Bosnia"),
   ("Costa Rica", "Costarica"),
   ("Czech Republic", "Czech"),
   ("Dominican Republic", "Dominican"),
   ("El Salvador", "Elsalvador"),
   ("Hong Kong", "Hongkong"),
   ("Ivory Coast", "Ivorycoast"),
   ("New Caledonia", "Newcaledonia"),
   ("New Zealand", "Newzealand"),
   ("Puerto Rico", "Puertorico"),
   ("Saudi Arabia", "Saudiarabia"),
   ("South Africa", "Southafrica"),
   ("United Arab Emirates", "Uae"),
   ("United Kingdom", "Unitedkingdom"),
   ("United States", "Usa")]

/-- `normalize_country_name`: strip the name, look it up in `slug_map`,
fall back to removing spaces and periods.  Returns `(display, slug)`. -/
def normalize_country_name (name : String) : String × String :=
  let name := pyStrip name
  let slug := (slug_map.lookup name).getD (removeSpacesPeriods name)
  (name, slug)

/-! ## Fetcher (`try_download`, lines 91-98) -/

/-- An HTTP response: status code and body. -/
structure Response where
  status : Nat
  content : Bytes
deriving DecidableEq, Repr

/-- `try_download`: issue the GET through the oracle (`none` models a
raised exception, caught and turned into `None`); accept only status 200
with a body strictly larger than 50,000 bytes. -/
def try_download (http : String → Option Response) (url : String) : Option Bytes :=
  match http url with
  | none => none
  | some r => if r.status = 200 ∧ r.content.length > 50000 then some r.content else none

/-! ## Candidate Generator (pattern templates and `pat.format`, lines 115-118) -/

/-- One token of a Python format template: a literal piece, or one of the
four named placeholders appearing in the source's `file_patterns`. -/
inductive Tok where
  | lit : String → Tok
  | slugPh : Tok
  | slugLowerPh : Tok
  | countryLowerPh : Tok
  | countryPh : Tok
deriving DecidableEq, Repr

/-- Substitute one token given the four keyword-argument values. -/
def renderTok (slugV slugLowerV countryLowerV countryV : String) : Tok → String
  | Tok.lit s => s
  | Tok.slugPh => slugV
  | Tok.slugLowerPh => slugLowerV
  | Tok.countryLowerPh => countryLowerV
  | Tok.countryPh => countryV

/-- Render a whole template given the four keyword-argument values. -/
def renderTemplate (slugV slugLowerV countryLowerV countryV : String) (pat : List Tok) : String :=
  (pat.map (renderTok slugV slugLowerV countryLowerV countryV)).foldl
    (fun a b => a ++ b) ""

/-- `pat.format(slug=slug, slug_lower=lower, country_lower=lower, country=display)`
as written at lines 116-118: note that BOTH `slug_lower` and `country_lower`
are bound to `lower = slug.lower()`. -/
def formatPattern (slug display : String) (pat : List Tok) : String :=
  renderTemplate slug (pyLower slug) (pyLower slug) display pat

/-- Modelled from the spec for comparison (refinement check of the
Candidate Generator): the spec binds the four placeholders to the slug
verbatim, the slug lower-cased, the DISPLAY NAME lower-cased, and the
display name verbatim. -/
def formatPatternSpec (slug display : String) (pat : List Tok) : String :=
  renderTemplate slug (pyLower slug) (pyLower display) display pat

/-! ## Sources configuration (lines 24-42) -/

/-- One source: name, base URL and ordered filename pattern templates. -/
structure Source where
  name : String
  base_raw : String
  file_patterns : List (List Tok)
deriving DecidableEq, Repr

/-- The `globetvapp` source with its thirteen file patterns, in order. -/
def globetvapp : Source :=
  { name := "globetvapp"
    base_raw := "https://raw.githubusercontent.com/globetvapp/epg/main"
    file_patterns :=
      [[Tok.slugLowerPh, Tok.lit "1.xml"],
       [Tok.slugLowerPh, Tok.lit "2.xml"],
       [Tok.slugLowerPh, Tok.lit "3.xml"],
       [Tok.slugLowerPh, Tok.lit "4.xml"],
       [Tok.slugLowerPh, Tok.lit "5.xml"],
       [Tok.slugLowerPh, Tok.lit "6.xml"],
       [Tok.lit "guide.xml"],
       [Tok.lit "epg.xml"],
       [Tok.slugPh, Tok.lit ".xml"],
       [Tok.countryLowerPh, Tok.lit ".xml"],
       [Tok.slugLowerPh, Tok.lit ".xml.gz"],
       [Tok.lit "guide.xml.gz"],
       [Tok.lit "epg.xml.gz"]] }

/-- `SOURCES`, the ordered source list (one source as of this version). -/
def SOURCES : List Source := [globetvapp]

/-! ## URL building (`urllib.parse.quote`, line 119) -/

/-- Hex digit (upper case) of a value below 16, as used by percent-encoding. -/
def hexDigit (n : Nat) : Char :=
  if n < 10 then Char.ofNat (48 + n) else Char.ofNat (55 + n)

/-- Is `c` kept verbatim by `urllib.parse.quote` with the default
`safe="/"`?  Unreserved characters plus the slash. -/
def quoteSafe (c : Char) : Bool :=
  ('A' ≤ c && c ≤ 'Z') || ('a' ≤ c && c ≤ 'z') || ('0' ≤ c && c ≤ '9') ||
  c = '_' || c = '.' || c = '-' || c = '~' || c = '/'

/-- `urllib.parse.quote` on the ASCII strings this program builds:
percent-encode every unsafe byte. -/
def pyQuote (s : String) : String :=
  ⟨s.toList.flatMap (fun c =>
    if quoteSafe c then [c] else ['%', hexDigit (c.toNat / 16), hexDigit (c.toNat % 16)])⟩

/-- `url = f"{base}/{quote(folder)}/{quote(filename)}"` (line 119). -/
def mkUrl (base folder filename : String) : String :=
  base ++ "/" ++ pyQuote folder ++ "/" ++ pyQuote filename

/-- `s.endswith(sfx)`: the last `len(sfx)` characters of `s` are `sfx`
(computed over character lists so that proofs can evaluate it). -/
def pyEndsWith (s sfx : String) : Bool :=
  let cs := s.toList
  let fs := sfx.toList
  fs.length ≤ cs.length && cs.drop (cs.length - fs.length) == fs

/-- `filename.lower().endswith('.gz')` (line 126). -/
def endsGz (filename : String) : Bool :=
  pyEndsWith (pyLower filename) ".gz"

/-! ## Acquisition Orchestrator (`download_for_country`, lines 101-144) -/

/-- Filesystem effects performed by the orchestrator:
`mkdirP p` models `Path(p).mkdir(parents=True, exist_ok=True)`,
`writeFile p b` models `open(p, "wb").write(b)`. -/
inductive FsEvent where
  | mkdirP : String → FsEvent
  | writeFile : String → Bytes → FsEvent
deriving DecidableEq, Repr

/-- The inner pattern loop (lines 115-141): try each pattern in order;
on a fetched payload, gunzip it first when the filename ends in `.gz`
(a gunzip failure skips to the next pattern, line 132); the first usable
payload stops the loop.  Returns the filenames attempted (in order) and
the bytes that would be written, if any. -/
def runPatterns (http : String → Option Response) (gunzip : Bytes → Option Bytes)
    (slug display base folder : String) : List (List Tok) → List String × Option Bytes
  | [] => ([], none)
  | pat :: rest =>
    let filename := formatPattern slug display pat
    let url := mkUrl base folder filename
    match try_download http url with
    | none =>
      let r := runPatterns http gunzip slug display base folder rest
      (filename :: r.1, r.2)
    | some data =>
      if endsGz filename then
        match gunzip data with
        | none =>
          let r := runPatterns http gunzip slug display base folder rest
          (filename :: r.1, r.2)
        | some d => ([filename], some d)
      else ([filename], some data)

/-- The outer source loop (lines 110-113): `folder = slug` for every
source; a success in one source stops the remaining sources. -/
def runSources (http : String → Option Response) (gunzip : Bytes → Option Bytes)
    (slug display : String) : List Source → List String × Option Bytes
  | [] => ([], none)
  | src :: rest =>
    let r := runPatterns http gunzip slug display src.base_raw slug src.file_patterns
    match r.2 with
    | some d => (r.1, some d)
    | none =>
      let r2 := runSources http gunzip slug display rest
      (r.1 ++ r2.1, r2.2)

/-- Result of one `download_for_country` invocation: the returned boolean,
the filesystem events in order, and the filenames attempted. -/
structure RunResult where
  success : Bool
  events : List FsEvent
  attempted : List String
deriving DecidableEq, Repr

/-- `download_for_country`: resolve the name, create the country directory
(line 105, before any candidate is attempted), then run the source/pattern
loops; the guide file is written only on success (lines 136-139). -/
def download_for_country (http : String → Option Response) (gunzip : Bytes → Option Bytes)
    (country_display : String) (output_dir : String) : RunResult :=
  let ds := normalize_country_name country_display
  let slug := ds.2
  let country_dir := output_dir ++ "/" ++ slug
  let target := country_dir ++ "/guide.xml"
  let r := runSources http gunzip slug ds.1 SOURCES
  match r.2 with
  | some d =>
    { success := true
      events := [FsEvent.mkdirP country_dir, FsEvent.writeFile target d]
      attempted := r.1 }
  | none =>
    { success := false
      events := [FsEvent.mkdirP country_dir]
      attempted := r.1 }

/-! ## Derived views of the candidate sequence, used to state the claims -/

/-- The flattened candidate list `(filename, url)` for a country, in the
exact order the nested loops of `download_for_country` attempt them. -/
def candidatesOf (slug display : String) (srcs : List Source) : List (String × String) :=
  srcs.flatMap (fun src =>
    src.file_patterns.map (fun pat =>
      let filename := formatPattern slug display pat
      (filename, mkUrl src.base_raw slug filename)))

/-- The overall outcome of one candidate, fetch then optional gunzip:
`none` when the fetch is rejected, or when a `.gz` payload fails to
decompress; `some b` gives exactly the bytes that would be written. -/
def candidateOutcome (http : String → Option Response) (gunzip : Bytes → Option Bytes)
    (c : String × String) : Option Bytes :=
  match try_download http c.2 with
  | none => none
  | some data => if endsGz c.1 then gunzip data else some data

/-- Reference short-circuiting scan over a candidate list: attempted
names and first `some` outcome. -/
def firstHit (oc : String × String → Option Bytes) : List (String × String) → List String × Option Bytes
  | [] => ([], none)
  | c :: rest =>
    match oc c with
    | some d => ([c.1], some d)
    | none =>
      let r := firstHit oc rest
      (c.1 :: r.1, r.2)

/-! ## Dates and times (`datetime`, `strptime`, `isoformat`, `timedelta.days`) -/

/-- A timezone-aware UTC datetime, as the fields Python's `datetime`
carries here (microseconds are always zero in this program). -/
structure DateTime where
  year : Nat
  month : Nat
  day : Nat
  hour : Nat
  minute : Nat
  second : Nat
deriving DecidableEq, Repr

/-- Decimal digit value of a character, `none` for non-digits. -/
def digitVal (c : Char) : Option Nat :=
  if '0' ≤ c ∧ c ≤ '9' then some (c.toNat - 48) else none

/-- Read a digit string as a number; `none` if any character is not a digit. -/
def natOfDigits (cs : List Char) : Option Nat :=
  cs.foldl (fun acc c =>
    match acc, digitVal c with
    | some n, some d => some (n * 10 + d)
    | _, _ => none) (some 0)

/-- Proleptic-Gregorian leap year, as Python's `datetime` uses. -/
def isLeap (y : Nat) : Bool :=
  (y % 4 = 0 && y % 100 ≠ 0) || y % 400 = 0

/-- Length of a month in the proleptic Gregorian calendar. -/
def daysInMonth (y m : Nat) : Nat :=
  if m = 2 then (if isLeap y then 29 else 28)
  else if m = 4 || m = 6 || m = 9 || m = 11 then 30 else 31

/-- `datetime.strptime(s, "%Y%m%d%H%M%S")` on the canonical 14-digit form
(4-digit year), including the range validation `datetime` performs; any
failure is a `ValueError`, modelled as `none`.  (CPython's format regex
also tolerates some shorter digit runs; the program's data uses the
14-digit XMLTV form, the case modelled here.) -/
def strptime14 (s : String) : Option DateTime :=
  let cs := s.toList
  if cs.length = 14 then
    match natOfDigits (cs.take 4), natOfDigits ((cs.drop 4).take 2),
          natOfDigits ((cs.drop 6).take 2), natOfDigits ((cs.drop 8).take 2),
          natOfDigits ((cs.drop 10).take 2), natOfDigits ((cs.drop 12).take 2) with
    | some y, some mo, some d, some h, some mi, some se =>
      if 1 ≤ y ∧ y ≤ 9999 ∧ 1 ≤ mo ∧ mo ≤ 12 ∧ 1 ≤ d ∧ d ≤ daysInMonth y mo ∧
         h ≤ 23 ∧ mi ≤ 59 ∧ se ≤ 59
      then some ⟨y, mo, d, h, mi, se⟩ else none
    | _, _, _, _, _, _ => none
  else none

/-- `start.split(" ")[0][:14]` then `strptime` (lines 183-185): keep the
characters before the first space (discarding a trailing timezone token;
`split(" ")[0]` is exactly the leading run of non-space characters) and
of those the first 14. -/
def parseStart (start : String) : Option DateTime :=
  strptime14 ⟨(start.toList.takeWhile (fun c => c ≠ ' ')).take 14⟩

/-- Day number of a civil date (proleptic Gregorian, epoch 1970-01-01);
the standard `days_from_civil` computation, which agrees with Python's
`date.toordinal` up to a constant shift and hence gives the same
differences. -/
def daysFromCivil (y m d : Int) : Int :=
  let y' := if m ≤ 2 then y - 1 else y
  let era := Int.fdiv y' 400
  let yoe := y' - era * 400
  let mp := if 2 < m then m - 3 else m + 9
  let doy := Int.fdiv (153 * mp + 2) 5 + d - 1
  let doe := yoe * 365 + Int.fdiv yoe 4 - Int.fdiv yoe 100 + doy
  era * 146097 + doe - 719468

/-- Seconds since the epoch of a UTC `DateTime`; differences of these are
exactly Python's `datetime` subtraction (in seconds). -/
def toSecs (dt : DateTime) : Int :=
  daysFromCivil dt.year dt.month dt.day * 86400 +
    dt.hour * 3600 + dt.minute * 60 + dt.second

/-- Left-pad a decimal rendering with zeros to width `w`. -/
def padZ (w : Nat) (n : Nat) : String :=
  let s := toString n
  ⟨List.replicate (w - s.length) '0'⟩ ++ s

/-- The offset-free part of `datetime.isoformat()`: `YYYY-MM-DDTHH:MM:SS`. -/
def isoCore (dt : DateTime) : String :=
  padZ 4 dt.year ++ "-" ++ padZ 2 dt.month ++ "-" ++ padZ 2 dt.day ++ "T" ++
    padZ 2 dt.hour ++ ":" ++ padZ 2 dt.minute ++ ":" ++ padZ 2 dt.second

/-- `datetime.isoformat()` of a timezone-aware UTC datetime: Python
appends the UTC offset `+00:00`. -/
def isoUtc (dt : DateTime) : String := isoCore dt ++ "+00:00"

/-- Python `max` over a list of datetimes (comparison is chronological;
the first maximum encountered is kept).  `none` on the empty list, where
Python would raise — the code guards with `if start_times:`. -/
def pyMax : List DateTime → Option DateTime
  | [] => none
  | d :: rest => some (rest.foldl (fun acc x => if toSecs acc < toSecs x then x else acc) d)

/-! ## Index Builder (`build_index`, lines 146-214) -/

/-- One `programme` element, as far as `build_index` reads it: its
optional `start` attribute (`prog.get("start")`). -/
structure Programme where
  start : Option String
deriving DecidableEq, Repr

/-- A parsed guide document, as far as `build_index` reads it: the count
of immediate `channel` children, the immediate `programme` children, and
the optional root attributes `date` and `generator-info-name`. -/
structure XmlDoc where
  channels : Nat
  programmes : List Programme
  dateAttr : Option String
  generatorAttr : Option String
deriving DecidableEq, Repr

/-- The loop of lines 180-188: collect, in document order, the parsed
start time of every programme whose `start` attribute is present and
non-empty (Python truthiness) and parses; unparsable values are skipped. -/
def collectStarts : List Programme → List DateTime
  | [] => []
  | p :: rest =>
    match p.start with
    | none => collectStarts rest
    | some s =>
      if s = "" then collectStarts rest
      else
        match parseStart s with
        | some dt => dt :: collectStarts rest
        | none => collectStarts rest

/-- One value of the index mapping (lines 198-210).  `st_size` is the raw
file size the entry is computed from (`size_mb` is derived from it);
`age_days` is `none` for the `"N/A"` sentinel, `some n` for the integer. -/
structure IndexEntry where
  country : String
  file : String
  st_size : Nat
  last_updated : String
  source : String
  channels : Nat
  programmes : Nat
  generated_date : String
  latest_programme_start : String
  age_days : Option Int
  generator : String
deriving DecidableEq, Repr

/-- `round(st_size / (1024 * 1024), 2)` as hundredths of a MB, computed on
the exact rational with round-half-to-even (the float representation
error of CPython's division is not modelled; no claim depends on it). -/
def sizeMbX100 (size : Nat) : Nat :=
  let num := size * 100
  let q := num / 1048576
  let r := num % 1048576
  if 2 * r < 1048576 then q
  else if 1048576 < 2 * r then q + 1
  else if q % 2 = 0 then q else q + 1

/-- The body of the per-country loop of `build_index` (lines 155-210),
for a guide file that passed the existence/size gate: `doc = none` models
`ET.parse` raising (caught at line 195, defaults kept), `doc = some root`
a successful parse. -/
def buildEntry (now : DateTime) (name : String) (size : Nat) (doc : Option XmlDoc) : IndexEntry :=
  let base : IndexEntry :=
    { country := name
      file := name ++ "/guide.xml"
      st_size := size
      last_updated := isoCore now ++ "Z"
      source := "globetvapp/epg (primary)"
      channels := 0
      programmes := 0
      generated_date := "Unknown"
      latest_programme_start := "Unknown"
      age_days := none
      generator := "Unknown" }
  match doc with
  | none => base
  | some root =>
    let withCounts :=
      { base with
        channels := root.channels
        programmes := root.programmes.length
        generated_date := root.dateAttr.getD "Unknown"
        generator := root.generatorAttr.getD "Unknown" }
    match pyMax (collectStarts root.programmes) with
    | none => withCounts
    | some m =>
      { withCounts with
        latest_programme_start := isoUtc m
        age_days := some (max (Int.fdiv (toSecs now - toSecs m) 86400) 0) }

/-- One entry of `output_dir.iterdir()`: its name, whether it is a
directory, and its `guide.xml` if present — `(st_size, parse result)`,
where a `none` parse result models malformed XML. -/
structure DirEntry where
  name : String
  isDir : Bool
  guide : Option (Nat × Option XmlDoc)
deriving DecidableEq, Repr

/-- The gate of lines 148-153: only directories owning a guide file of
size at least 50,000 bytes get an index entry (`st_size < 50_000` skips). -/
def qualifies (e : DirEntry) : Bool :=
  e.isDir &&
    match e.guide with
    | none => false
    | some (size, _) => decide (50000 ≤ size)

/-- `build_index` (lines 146-214): iterate the directory entries in
order, skip non-directories and missing/undersized guides, and emit one
entry per remaining country keyed by the directory name.  The final
`json.dump` serialization is not modelled. -/
def build_index (now : DateTime) (entries : List DirEntry) : List (String × IndexEntry) :=
  entries.foldl (fun idx e =>
    if !e.isDir then idx
    else
      match e.guide with
      | none => idx
      | some (size, doc) =>
        if size < 50000 then idx
        else idx ++ [(e.name, buildEntry now e.name size doc)]) []

/-! ## Lemmas: the nested loops are the short-circuiting scan of the
flattened candidate list -/

lemma runPatterns_eq_firstHit (http : String → Option Response) (gunzip : Bytes → Option Bytes)
    (slug display base folder : String) (pats : List (List Tok)) :
    runPatterns http gunzip slug display base folder pats =
      firstHit (candidateOutcome http gunzip)
        (pats.map (fun pat =>
          (formatPattern slug display pat, mkUrl base folder (formatPattern slug display pat)))) := by
  induction pats with
  | nil => rfl
  | cons pat rest ih =>
    simp only [runPatterns, List.map_cons, firstHit, candidateOutcome, ih]
    cases try_download http (mkUrl base folder (formatPattern slug display pat)) with
    | none => simp
    | some data =>
      by_cases hgz : endsGz (formatPattern slug display pat) = true
      · simp only [hgz, if_pos]
        cases gunzip data with
        | none => simp
        | some d => simp
      · simp [hgz]


/-! ## Concrete fixtures used by the scenario theorems below -/

/-- A fixed "current time" for index-building scenarios: 2026-01-10 00:00:00 UTC. -/
def now0 : DateTime := ⟨2026, 1, 10, 0, 0, 0⟩

/-- A 50,001-byte payload (just above the acceptance threshold). -/
def bigBody : Bytes := List.replicate 50001 7

/-- An HTTP oracle on which every URL yields a 200 response with `bigBody`. -/
def httpAll : String → Option Response := fun _ => some ⟨200, bigBody⟩

/-- An HTTP oracle on which every request fails. -/
def httpNone : String → Option Response := fun _ => none

/-- An HTTP oracle that serves `bigBody` only for `.gz` URLs. -/
def httpGzOnly : String → Option Response := fun url =>
  if pyEndsWith url ".gz" then some ⟨200, bigBody⟩ else none

/-- A gunzip oracle that always fails. -/
def gunzipNone : Bytes → Option Bytes := fun _ => none

/-- A gunzip behaviour producing a tiny output: real `gzip.decompress` can
shrink, e.g. a 50,001-byte member whose header carries a long comment
field and whose deflate stream encodes one byte. -/
def gunzipShrink : Bytes → Option Bytes := fun _ => some [7]

/-- The scenario document of the spec: three `programme` elements with the
given `start` values (and two `channel` elements, no root attributes). -/
def doc3 : XmlDoc :=
  ⟨2, [⟨some "20260101060000"⟩, ⟨some "20260103120000"⟩, ⟨some "20251230000000"⟩], none, none⟩
lemma firstHit_append_some (oc : String × String → Option Bytes)
    (l1 l2 : List (String × String)) (as : List String) (d : Bytes)
    (h : firstHit oc l1 = (as, some d)) :
    firstHit oc (l1 ++ l2) = (as, some d) := by
  induction l1 generalizing as with
  | nil => simp [firstHit] at h
  | cons c rest ih =>
    cases hc : oc c with
    | some e =>
      simp only [firstHit, hc] at h
      simp only [List.cons_append, firstHit, hc, List.append_eq]
      exact h
    | none =>
      simp only [firstHit, hc] at h
      simp only [List.cons_append, firstHit, hc, List.append_eq]
      rw [Prod.mk.injEq] at h
      have hrest : firstHit oc rest = ((firstHit oc rest).1, some d) := by rw [← h.2]
      rw [ih _ hrest]
      simp [h.1]

lemma firstHit_append_none (oc : String × String → Option Bytes)
    (l1 l2 : List (String × String)) (as : List String)
    (h : firstHit oc l1 = (as, none)) :
    firstHit oc (l1 ++ l2) = (as ++ (firstHit oc l2).1, (firstHit oc l2).2) := by
  induction l1 generalizing as with
  | nil =>
    simp only [firstHit] at h
    rw [Prod.mk.injEq] at h
    simp [← h.1]
  | cons c rest ih =>
    cases hc : oc c with
    | some e =>
      simp only [firstHit, hc] at h
      rw [Prod.mk.injEq] at h
      exact absurd h.2 (by simp)
    | none =>
      simp only [firstHit, hc] at h
      simp only [List.cons_append, firstHit, hc, List.append_eq]
      rw [Prod.mk.injEq] at h
      have hrest : firstHit oc rest = ((firstHit oc rest).1, none) := by rw [← h.2]
      rw [ih _ hrest]
      simp [← h.1]

lemma candidatesOf_cons (slug display : String) (src : Source) (rest : List Source) :
    candidatesOf slug display (src :: rest) =
      src.file_patterns.map (fun pat =>
        (formatPattern slug display pat, mkUrl src.base_raw slug (formatPattern slug display pat)))
        ++ candidatesOf slug display rest := by
  simp [candidatesOf]

lemma runSources_eq_firstHit (http : String → Option Response) (gunzip : Bytes → Option Bytes)
    (slug display : String) (srcs : List Source) :
    runSources http gunzip slug display srcs =
      firstHit (candidateOutcome http gunzip) (candidatesOf slug display srcs) := by
  induction srcs with
  | nil => rfl
  | cons src rest ih =>
    rw [candidatesOf_cons]
    simp only [runSources, runPatterns_eq_firstHit, ih]
    rcases h2 : (firstHit (candidateOutcome http gunzip)
        (src.file_patterns.map (fun pat =>
          (formatPattern slug display pat,
           mkUrl src.base_raw slug (formatPattern slug display pat))))).2 with _ | d
    · rw [firstHit_append_none _ _ _ _ (by rw [← h2])]
    · rw [firstHit_append_some _ _ _ _ _ (by rw [← h2])]

lemma firstHit_all_none (oc : String × String → Option Bytes) (l : List (String × String))
    (h : ∀ c ∈ l, oc c = none) :
    firstHit oc l = (l.map Prod.fst, none) := by
  induction l with
  | nil => rfl
  | cons c rest ih =>
    have hc : oc c = none := h c (by simp)
    simp only [firstHit, hc, List.map_cons]
    rw [ih (fun x hx => h x (by simp [hx]))]

lemma firstHit_first_some (oc : String × String → Option Bytes) :
    ∀ (l : List (String × String)) (i : Nat) (h : i < l.length) (b : Bytes),
      oc (l.get ⟨i, h⟩) = some b →
      (∀ j (hj : j < i), oc (l.get ⟨j, Nat.lt_trans hj h⟩) = none) →
      firstHit oc l = ((l.map Prod.fst).take (i + 1), some b) := by
  intro l
  induction l with
  | nil => intro i h; exact absurd h (by simp)
  | cons c rest ih =>
    intro i h b hsome hnone
    cases i with
    | zero =>
      simp only [List.get] at hsome
      simp [firstHit, hsome]
    | succ n =>
      have hc : oc c = none := hnone 0 (Nat.succ_pos n)
      have hrest := ih n (Nat.lt_of_succ_lt_succ h) b hsome
        (fun j hj => hnone (j + 1) (Nat.succ_lt_succ hj))
      simp only [firstHit, hc, List.map_cons, List.take_succ_cons]
      rw [hrest]

lemma firstHit_some_mem (oc : String × String → Option Bytes) :
    ∀ (l : List (String × String)) (b : Bytes),
      (firstHit oc l).2 = some b → ∃ c ∈ l, oc c = some b := by
  intro l
  induction l with
  | nil => intro b hb; simp [firstHit] at hb
  | cons c rest ih =>
    intro b hb
    cases hc : oc c with
    | some d =>
      simp only [firstHit, hc] at hb
      exact ⟨c, by simp, by rw [hc, hb]⟩
    | none =>
      simp only [firstHit, hc] at hb
      obtain ⟨x, hx, hox⟩ := ih b hb
      exact ⟨x, by simp [hx], hox⟩

lemma try_download_some_size (http : String → Option Response) (url : String) (b : Bytes)
    (h : try_download http url = some b) : 50000 < b.length := by
  unfold try_download at h
  cases hr : http url with
  | none => rw [hr] at h; simp at h
  | some r =>
    rw [hr] at h
    dsimp only at h
    split at h
    next hok =>
      cases h
      exact hok.2
    next => simp at h

/-! ## Claim theorems -/

/-- Claim C5: `normalize_country_name` is pure and total (it is a total
Lean function); after trimming, a name in the override table resolves to
the overridden slug exactly, and any other name resolves to the trimmed
name with spaces and periods removed, case preserved; in particular
"United Kingdom" resolves to "Unitedkingdom" and "Brazil" to "Brazil". -/
theorem normalize_country_name_resolves (name : String) :
    (normalize_country_name name).1 = pyStrip name ∧
    (∀ s, slug_map.lookup (pyStrip name) = some s → (normalize_country_name name).2 = s) ∧
    (slug_map.lookup (pyStrip name) = none →
      (normalize_country_name name).2 = removeSpacesPeriods (pyStrip name)) ∧
    normalize_country_name "United Kingdom" = ("United Kingdom", "Unitedkingdom") ∧
    normalize_country_name "Brazil" = ("Brazil", "Brazil") := by
  refine ⟨rfl, ?_, ?_, by decide, by decide⟩
  · intro s hs
    simp [normalize_country_name, hs]
  · intro hnone
    simp [normalize_country_name, hnone]

/-- Witness for C5: both branches of the resolver exercised at the spec's
two scenario inputs. -/
theorem normalize_country_name_resolves_witness :
    ((normalize_country_name "United Kingdom").2 = "Unitedkingdom" ∧
      (normalize_country_name "Brazil").2 = removeSpacesPeriods (pyStrip "Brazil")) :=
  ⟨(normalize_country_name_resolves "United Kingdom").2.1 "Unitedkingdom" (by decide),
   (normalize_country_name_resolves "Brazil").2.2.1 (by decide)⟩

/-- Claim C2: `try_download` rejects any body of at most 50,000 bytes
regardless of status; a body of exactly 50,000 bytes is rejected, and a
status-200 body of 50,001 bytes is accepted and returned (200 is the one
status the code treats as success). -/
theorem try_download_size_filter (http : String → Option Response) (url : String)
    (r : Response) (hr : http url = some r) :
    (r.content.length ≤ 50000 → try_download http url = none) ∧
    (r.content.length = 50000 → try_download http url = none) ∧
    (r.status = 200 → r.content.length = 50001 → try_download http url = some r.content) := by
  unfold try_download
  rw [hr]
  dsimp only
  refine ⟨?_, ?_, ?_⟩
  · intro hle
    rw [if_neg]
    intro hcon
    omega
  · intro heq
    rw [if_neg]
    intro hcon
    omega
  · intro hst hlen
    rw [if_pos ⟨hst, by omega⟩]

/-- Witness for C2: a concrete 200 response of 50,001 bytes. -/
theorem try_download_size_filter_witness :
    ((⟨200, bigBody⟩ : Response).content.length ≤ 50000 →
      try_download httpAll "u" = none) ∧
    ((⟨200, bigBody⟩ : Response).content.length = 50000 →
      try_download httpAll "u" = none) ∧
    ((⟨200, bigBody⟩ : Response).status = 200 →
      (⟨200, bigBody⟩ : Response).content.length = 50001 →
      try_download httpAll "u" = some (⟨200, bigBody⟩ : Response).content) :=
  try_download_size_filter httpAll "u" ⟨200, bigBody⟩ rfl

/-- Claim C10: `download_for_country` creates `<output_root>/<slug>`
(with parents) before attempting any candidate: the mkdir event is the
first filesystem event of every run, including runs that end exhausted
with no guide file written. -/
theorem download_for_country_creates_dir (http : String → Option Response)
    (gunzip : Bytes → Option Bytes) (country_display output_dir : String) :
    (download_for_country http gunzip country_display output_dir).events.head? =
      some (FsEvent.mkdirP
        (output_dir ++ "/" ++ (normalize_country_name country_display).2)) := by
  unfold download_for_country
  rcases h : (runSources http gunzip (normalize_country_name country_display).2
      (normalize_country_name country_display).1 SOURCES).2 with _ | d
  · simp [h]
  · simp [h]

/-- The first projections of the flattened candidate list are the
formatted filenames, one per template, in template order. -/
lemma candidatesOf_fst (slug display : String) (srcs : List Source) :
    (candidatesOf slug display srcs).map Prod.fst =
      (srcs.flatMap Source.file_patterns).map (formatPattern slug display) := by
  induction srcs with
  | nil => rfl
  | cons src rest ih =>
    rw [candidatesOf_cons, List.flatMap_cons, List.map_append, List.map_append,
      List.map_map, ih]
    congr 1

/-- Counterexample for C4: the code binds the `country_lower` placeholder
to the lower-cased SLUG (line 103/117), not the lower-cased display name.
For the reachable pair slug = "Usa", display = "United States" (the
resolver's own output) the template `country_lower ++ ".xml"` renders
"usa.xml", not the spec's "united states.xml". -/
theorem candidate_generator_country_lower_cex :
    (normalize_country_name "United States").2 = "Usa" ∧
    formatPattern "Usa" "United States" [Tok.countryLowerPh, Tok.lit ".xml"] = "usa.xml" ∧
    formatPatternSpec "Usa" "United States" [Tok.countryLowerPh, Tok.lit ".xml"] =
      "united states.xml" ∧
    formatPattern "Usa" "United States" [Tok.countryLowerPh, Tok.lit ".xml"] ≠
      formatPatternSpec "Usa" "United States" [Tok.countryLowerPh, Tok.lit ".xml"] := by
  refine ⟨by decide, by decide, by decide, by decide⟩

/-- Claim C4 (amended): for every country, the candidate generator inside
`download_for_country` produces exactly one filename per template, in
template order, by substituting the slug verbatim for `slug`, the slug
lower-cased for `slug_lower`, the display name verbatim for `country`,
and the slug lower-cased (not the display name lower-cased) for
`country_lower`.  The attempted-filename trace of a run in which every
fetch fails is exactly that sequence. -/
theorem candidate_generator_order (gunzip : Bytes → Option Bytes)
    (country_display output_dir : String) :
    (download_for_country httpNone gunzip country_display output_dir).attempted =
      (SOURCES.flatMap Source.file_patterns).map
        (formatPattern (normalize_country_name country_display).2
          (normalize_country_name country_display).1) ∧
    ((SOURCES.flatMap Source.file_patterns).map
        (formatPattern (normalize_country_name country_display).2
          (normalize_country_name country_display).1)).length =
      (SOURCES.flatMap Source.file_patterns).length ∧
    (∀ s d : String, formatPattern s d [Tok.slugPh] = s ∧
      formatPattern s d [Tok.slugLowerPh] = pyLower s ∧
      formatPattern s d [Tok.countryPh] = d ∧
      formatPattern s d [Tok.countryLowerPh] = pyLower s) := by
  refine ⟨?_, List.length_map _ _, ?_⟩
  · have hall : ∀ c ∈ candidatesOf (normalize_country_name country_display).2
        (normalize_country_name country_display).1 SOURCES,
        candidateOutcome httpNone gunzip c = none := by
      intro c _
      rfl
    have hrun := runSources_eq_firstHit httpNone gunzip
      (normalize_country_name country_display).2
      (normalize_country_name country_display).1 SOURCES
    rw [firstHit_all_none _ _ hall] at hrun
    unfold download_for_country
    dsimp only
    rw [hrun]
    exact candidatesOf_fst _ _ _
  · intro s d
    refine ⟨?_, ?_, ?_, ?_⟩ <;> simp [formatPattern, renderTemplate, renderTok]

/-- Claim C1: for every country and every behaviour of the network and
gunzip oracles, `download_for_country` writes no guide file when every
candidate's outcome is `none` (fetch rejected, or `.gz` payload failing
to decompress, spec 4.3), and when some candidate succeeds it writes
exactly one guide file containing the first successful candidate's bytes
(decompressed when the filename ends in `.gz` — the outcome value), and
stops iterating (the attempt trace ends at that candidate). -/
theorem download_for_country_first_success (http : String → Option Response)
    (gunzip : Bytes → Option Bytes) (country_display output_dir : String) :
    ((∀ c ∈ candidatesOf (normalize_country_name country_display).2
          (normalize_country_name country_display).1 SOURCES,
        candidateOutcome http gunzip c = none) →
      (download_for_country http gunzip country_display output_dir).events =
        [FsEvent.mkdirP (output_dir ++ "/" ++ (normalize_country_name country_display).2)] ∧
      (download_for_country http gunzip country_display output_dir).success = false) ∧
    (∀ (i : Nat)
        (h : i < (candidatesOf (normalize_country_name country_display).2
          (normalize_country_name country_display).1 SOURCES).length)
        (b : Bytes),
      candidateOutcome http gunzip
          ((candidatesOf (normalize_country_name country_display).2
            (normalize_country_name country_display).1 SOURCES).get ⟨i, h⟩) = some b →
      (∀ j (hj : j < i),
        candidateOutcome http gunzip
          ((candidatesOf (normalize_country_name country_display).2
            (normalize_country_name country_display).1 SOURCES).get
              ⟨j, Nat.lt_trans hj h⟩) = none) →
      (download_for_country http gunzip country_display output_dir).events =
        [FsEvent.mkdirP (output_dir ++ "/" ++ (normalize_country_name country_display).2),
         FsEvent.writeFile
           (output_dir ++ "/" ++ (normalize_country_name country_display).2 ++ "/guide.xml")
           b] ∧
      (download_for_country http gunzip country_display output_dir).success = true ∧
      (download_for_country http gunzip country_display output_dir).attempted.length
        = i + 1) := by
  constructor
  · intro hall
    have hrun := runSources_eq_firstHit http gunzip
      (normalize_country_name country_display).2
      (normalize_country_name country_display).1 SOURCES
    rw [firstHit_all_none _ _ hall] at hrun
    unfold download_for_country
    dsimp only
    rw [hrun]
    exact ⟨rfl, rfl⟩
  · intro i h b hsome hnone
    have hrun := runSources_eq_firstHit http gunzip
      (normalize_country_name country_display).2
      (normalize_country_name country_display).1 SOURCES
    rw [firstHit_first_some _ _ i h b hsome hnone] at hrun
    unfold download_for_country
    dsimp only
    rw [hrun]
    refine ⟨rfl, rfl, ?_⟩
    dsimp only
    rw [List.length_take, List.length_map]
    omega

/-- Evaluation lemma: a delivered 200 response above the size threshold is
returned by `try_download` (stated with the payload abstract so that large
concrete payloads never need to be evaluated). -/
lemma try_download_eq_some (http : String → Option Response) (url : String) (r : Response)
    (hr : http url = some r) (hs : r.status = 200) (hl : 50000 < r.content.length) :
    try_download http url = some r.content := by
  unfold try_download
  rw [hr]
  dsimp only
  rw [if_pos ⟨hs, hl⟩]

/-- Evaluation lemma: a fetched non-`.gz` candidate's outcome is the
fetched bytes. -/
lemma candidateOutcome_nongz (http : String → Option Response) (gunzip : Bytes → Option Bytes)
    (c : String × String) (data : Bytes) (ht : try_download http c.2 = some data)
    (hgz : endsGz c.1 = false) :
    candidateOutcome http gunzip c = some data := by
  unfold candidateOutcome
  rw [ht]
  dsimp only
  rw [hgz]
  rw [if_neg (by decide : ¬ false = true)]

/-- Evaluation lemma: a fetched `.gz` candidate's outcome is its gunzip
result. -/
lemma candidateOutcome_gz (http : String → Option Response) (gunzip : Bytes → Option Bytes)
    (c : String × String) (data : Bytes) (ht : try_download http c.2 = some data)
    (hgz : endsGz c.1 = true) :
    candidateOutcome http gunzip c = gunzip data := by
  unfold candidateOutcome
  rw [ht]
  dsimp only
  rw [hgz]
  rw [if_pos rfl]

/-- Witness for C1: both branches at the country "Brazil" — an oracle on
which everything fails (no write), and one on which the very first
candidate succeeds with `bigBody` (one write, iteration stops at 1). -/
theorem download_for_country_first_success_witness :
    ((download_for_country httpNone gunzipNone "Brazil" "out").events =
        [FsEvent.mkdirP ("out" ++ "/" ++ "Brazil")] ∧
      (download_for_country httpNone gunzipNone "Brazil" "out").success = false) ∧
    ((download_for_country httpAll gunzipNone "Brazil" "out").events =
        [FsEvent.mkdirP ("out" ++ "/" ++ "Brazil"),
         FsEvent.writeFile ("out" ++ "/" ++ "Brazil" ++ "/guide.xml") bigBody] ∧
      (download_for_country httpAll gunzipNone "Brazil" "out").success = true ∧
      (download_for_country httpAll gunzipNone "Brazil" "out").attempted.length = 0 + 1) := by
  constructor
  · exact (download_for_country_first_success httpNone gunzipNone "Brazil" "out").1
      (fun c _ => rfl)
  · refine (download_for_country_first_success httpAll gunzipNone "Brazil" "out").2
      0 (by decide) bigBody ?_ (fun j hj => absurd hj (Nat.not_lt_zero j))
    refine candidateOutcome_nongz httpAll gunzipNone _ bigBody ?_ (by decide)
    exact try_download_eq_some httpAll _ ⟨200, bigBody⟩ rfl rfl
      (by rw [bigBody, List.length_replicate]; omega)

/-- Unfolding lemma: a successful source scan makes `download_for_country`
mkdir, write the outcome bytes to the guide path, and report success. -/
lemma download_for_country_of_some (http : String → Option Response)
    (gunzip : Bytes → Option Bytes) (cd out : String) (as : List String) (d : Bytes)
    (h : runSources http gunzip (normalize_country_name cd).2
      (normalize_country_name cd).1 SOURCES = (as, some d)) :
    download_for_country http gunzip cd out =
      { success := true
        events := [FsEvent.mkdirP (out ++ "/" ++ (normalize_country_name cd).2),
                   FsEvent.writeFile
                     (out ++ "/" ++ (normalize_country_name cd).2 ++ "/guide.xml") d]
        attempted := as } := by
  unfold download_for_country
  dsimp only
  rw [h]

/-- Unfolding lemma: an exhausted source scan makes `download_for_country`
mkdir only and report failure. -/
lemma download_for_country_of_none (http : String → Option Response)
    (gunzip : Bytes → Option Bytes) (cd out : String) (as : List String)
    (h : runSources http gunzip (normalize_country_name cd).2
      (normalize_country_name cd).1 SOURCES = (as, none)) :
    download_for_country http gunzip cd out =
      { success := false
        events := [FsEvent.mkdirP (out ++ "/" ++ (normalize_country_name cd).2)]
        attempted := as } := by
  unfold download_for_country
  dsimp only
  rw [h]

/-- In the Brazil candidate list, index 10 exists (13 candidates). -/
lemma brazil_cand10_lt : 10 < (candidatesOf (normalize_country_name "Brazil").2
    (normalize_country_name "Brazil").1 SOURCES).length := by decide

/-- Candidate 10 of Brazil (`brazil.xml.gz`) fetches `bigBody` from the
gz-only oracle. -/
lemma brazil_gz_fetch : try_download httpGzOnly
    ((candidatesOf (normalize_country_name "Brazil").2
      (normalize_country_name "Brazil").1 SOURCES).get ⟨10, brazil_cand10_lt⟩).2 = some bigBody :=
  try_download_eq_some httpGzOnly
    ((candidatesOf (normalize_country_name "Brazil").2
      (normalize_country_name "Brazil").1 SOURCES).get ⟨10, brazil_cand10_lt⟩).2
    ⟨200, bigBody⟩ rfl rfl (by rw [bigBody, List.length_replicate]; omega)

/-- Candidate 10 of Brazil has a `.gz` filename. -/
lemma brazil_gz_suffix : endsGz ((candidatesOf (normalize_country_name "Brazil").2
    (normalize_country_name "Brazil").1 SOURCES).get ⟨10, brazil_cand10_lt⟩).1 = true := rfl

/-- With the shrinking gunzip, candidate 10's outcome is the single byte. -/
lemma brazil_gz_outcome : candidateOutcome httpGzOnly gunzipShrink
    ((candidatesOf (normalize_country_name "Brazil").2
      (normalize_country_name "Brazil").1 SOURCES).get ⟨10, brazil_cand10_lt⟩) = some [7] := by
  rw [candidateOutcome_gz httpGzOnly gunzipShrink
    ((candidatesOf (normalize_country_name "Brazil").2
      (normalize_country_name "Brazil").1 SOURCES).get ⟨10, brazil_cand10_lt⟩)
    bigBody brazil_gz_fetch brazil_gz_suffix]
  rfl

/-- Candidates 0-9 of Brazil all fail on the gz-only oracle. -/
lemma brazil_pre_gz_none : ∀ j (hj : j < 10),
    candidateOutcome httpGzOnly gunzipShrink
      ((candidatesOf (normalize_country_name "Brazil").2
        (normalize_country_name "Brazil").1 SOURCES).get
          ⟨j, Nat.lt_trans hj brazil_cand10_lt⟩) = none := by
  intro j hj
  interval_cases j <;> rfl

/-- Counterexample for C8: the 50,000-byte acceptance filter is applied to
the fetched (compressed) payload, not to the bytes written.  With an
upstream serving a 50,001-byte `.gz` member that decompresses to a single
byte, `download_for_country` persists a 1-byte guide file — far below the
claimed minimum.  (Real `gzip.decompress` allows such members, e.g. one
whose header carries a ~50kB comment field.) -/
theorem guide_size_invariant_cex :
    FsEvent.writeFile ("./epg_db" ++ "/" ++ "Brazil" ++ "/guide.xml") [7] ∈
      (download_for_country httpGzOnly gunzipShrink "Brazil" "./epg_db").events ∧
    ([7] : Bytes).length < 50000 := by
  refine ⟨?_, by decide⟩
  have hrun := runSources_eq_firstHit httpGzOnly gunzipShrink
    (normalize_country_name "Brazil").2 (normalize_country_name "Brazil").1 SOURCES
  rw [firstHit_first_some _ _ 10 brazil_cand10_lt [7] brazil_gz_outcome brazil_pre_gz_none] at hrun
  rw [download_for_country_of_some httpGzOnly gunzipShrink "Brazil" "./epg_db" _ _ hrun]
  simp
  decide

/-- Claim C8 (amended): every guide file persisted by the orchestrator
either exceeds 50,000 bytes, or is the gunzip output of a fetched payload
exceeding 50,000 bytes — the size guarantee applies to the fetched bytes,
not to the decompressed bytes actually written for `.gz` candidates. -/
theorem guide_size_threshold (http : String → Option Response)
    (gunzip : Bytes → Option Bytes) (cd out p : String) (b : Bytes)
    (h : FsEvent.writeFile p b ∈ (download_for_country http gunzip cd out).events) :
    50000 < b.length ∨ ∃ data : Bytes, 50000 < data.length ∧ gunzip data = some b := by
  rcases hr : runSources http gunzip (normalize_country_name cd).2
    (normalize_country_name cd).1 SOURCES with ⟨as, res⟩
  cases res with
  | none =>
    rw [download_for_country_of_none http gunzip cd out as hr] at h
    simp at h
  | some d =>
    rw [download_for_country_of_some http gunzip cd out as d hr] at h
    simp only [List.mem_cons, List.mem_singleton, List.not_mem_nil, or_false] at h
    rcases h with h | h
    · exact absurd h (by simp)
    · have hb : b = d := by
        have := congrArg (fun e => match e with
          | FsEvent.writeFile _ bytes => bytes
          | FsEvent.mkdirP _ => []) h
        exact this
      subst hb
      have h2 : (firstHit (candidateOutcome http gunzip)
          (candidatesOf (normalize_country_name cd).2
            (normalize_country_name cd).1 SOURCES)).2 = some b := by
        rw [← runSources_eq_firstHit, hr]
      obtain ⟨c, _, hoc⟩ := firstHit_some_mem _ _ _ h2
      rcases ht : try_download http c.2 with _ | data
      · unfold candidateOutcome at hoc
        rw [ht] at hoc
        simp at hoc
      · have hsize := try_download_some_size http c.2 data ht
        unfold candidateOutcome at hoc
        rw [ht] at hoc
        dsimp only at hoc
        by_cases hgz : endsGz c.1 = true
        · rw [if_pos hgz] at hoc
          exact Or.inr ⟨data, hsize, hoc⟩
        · rw [if_neg hgz] at hoc
          cases hoc
          exact Or.inl hsize

/-- On the all-200 oracle, Brazil's first candidate outcome is `bigBody`. -/
lemma brazil_first_outcome : candidateOutcome httpAll gunzipNone
    ((candidatesOf (normalize_country_name "Brazil").2
      (normalize_country_name "Brazil").1 SOURCES).get
        ⟨0, by decide⟩) = some bigBody :=
  candidateOutcome_nongz httpAll gunzipNone _ bigBody
    (try_download_eq_some httpAll _ ⟨200, bigBody⟩ rfl rfl
      (by rw [bigBody, List.length_replicate]; omega))
    rfl

/-- Witness for C8 (amended): a concrete run that writes a guide file,
whose written bytes satisfy the disjunction. -/
theorem guide_size_threshold_witness :
    50000 < bigBody.length ∨
      ∃ data : Bytes, 50000 < data.length ∧ gunzipNone data = some bigBody := by
  refine guide_size_threshold httpAll gunzipNone "Brazil" "out"
    ("out" ++ "/" ++ "Brazil" ++ "/guide.xml") bigBody ?_
  have hrun := runSources_eq_firstHit httpAll gunzipNone
    (normalize_country_name "Brazil").2 (normalize_country_name "Brazil").1 SOURCES
  rw [firstHit_first_some _ _ 0 (by decide) bigBody brazil_first_outcome
    (fun j hj => absurd hj (Nat.not_lt_zero j))] at hrun
  rw [download_for_country_of_some httpAll gunzipNone "Brazil" "out" _ _ hrun]
  simp
  decide

/-- The accumulating loop of `build_index` contributes, per directory
entry, nothing for skipped entries and one keyed index entry otherwise. -/
lemma build_index_eq_flatMap (now : DateTime) (entries : List DirEntry) :
    build_index now entries = entries.flatMap (fun e =>
      if !e.isDir then []
      else match e.guide with
        | none => []
        | some (size, doc) =>
          if size < 50000 then []
          else [(e.name, buildEntry now e.name size doc)]) := by
  have h : ∀ (l : List DirEntry) (init : List (String × IndexEntry)),
      (l.foldl (fun idx e =>
        if !e.isDir then idx
        else match e.guide with
          | none => idx
          | some (size, doc) =>
            if size < 50000 then idx
            else idx ++ [(e.name, buildEntry now e.name size doc)]) init) =
      init ++ l.flatMap (fun e =>
        if !e.isDir then []
        else match e.guide with
          | none => []
          | some (size, doc) =>
            if size < 50000 then []
            else [(e.name, buildEntry now e.name size doc)]) := by
    intro l
    induction l with
    | nil => intro init; simp
    | cons e rest ih =>
      intro init
      simp only [List.foldl_cons, List.flatMap_cons]
      rw [ih]
      by_cases hd : e.isDir
      · rcases hg : e.guide with _ | ⟨size, doc⟩
        · simp [hd, hg]
        · by_cases hsz : size < 50000
          · simp [hd, hg, hsz]
          · simp [hd, hg, hsz]
      · simp [hd]
  unfold build_index
  rw [h entries []]
  simp

/-- The index keys are the names of the qualifying directories, in order. -/
lemma build_index_keys (now : DateTime) (entries : List DirEntry) :
    (build_index now entries).map Prod.fst = (entries.filter qualifies).map DirEntry.name := by
  rw [build_index_eq_flatMap]
  induction entries with
  | nil => rfl
  | cons e rest ih =>
    simp only [List.flatMap_cons, List.map_append, List.filter_cons]
    obtain ⟨nm, isd, g⟩ := e
    cases isd
    · simpa [qualifies] using ih
    · rcases g with _ | ⟨size, doc⟩
      · simpa [qualifies] using ih
      · by_cases hsz : size < 50000
        · simpa [qualifies, hsz, Nat.not_le.mpr hsz] using ih
        · simpa [qualifies, hsz, Nat.le_of_not_lt hsz] using ih

/-- Every qualifying directory contributes its entry to the index. -/
lemma build_index_mem_of_qualifies (now : DateTime) (entries : List DirEntry)
    (e : DirEntry) (size : Nat) (doc : Option XmlDoc) (he : e ∈ entries)
    (hd : e.isDir = true) (hg : e.guide = some (size, doc)) (hsz : 50000 ≤ size) :
    (e.name, buildEntry now e.name size doc) ∈ build_index now entries := by
  rw [build_index_eq_flatMap]
  rw [List.mem_flatMap]
  refine ⟨e, he, ?_⟩
  rw [hd, hg]
  simp [Nat.not_lt.mpr hsz]

/-- Counterexample for C3: a guide file of exactly 50,000 bytes is NOT
excluded — the code skips only `st_size < 50_000`, so the boundary case
gets an index entry, contradicting the claimed "≤ 50,000 excluded". -/
theorem build_index_threshold_cex :
    (50000 : Nat) ≤ 50000 ∧
    build_index now0 [⟨"Albania", true, some (50000, none)⟩] =
      [("Albania", buildEntry now0 "Albania" 50000 none)] ∧
    build_index now0 [⟨"Albania", true, some (50000, none)⟩] ≠ [] := by
  have heq : build_index now0 [⟨"Albania", true, some (50000, none)⟩] =
      [("Albania", buildEntry now0 "Albania" 50000 none)] := rfl
  refine ⟨Nat.le_refl _, heq, ?_⟩
  rw [heq]
  simp

/-- Claim C3 (amended): `build_index` excludes exactly the directories
whose guide file is missing or strictly smaller than 50,000 bytes: the
index keys are the names of the qualifying directories (guide present,
size ≥ 50,000) in scan order, and every qualifying directory contributes
its entry. -/
theorem build_index_threshold (now : DateTime) (entries : List DirEntry) :
    (build_index now entries).map Prod.fst = (entries.filter qualifies).map DirEntry.name ∧
    (∀ e ∈ entries, ∀ size doc, e.isDir = true → e.guide = some (size, doc) →
      50000 ≤ size →
      (e.name, buildEntry now e.name size doc) ∈ build_index now entries) :=
  ⟨build_index_keys now entries,
    fun e he size doc hd hg hsz =>
      build_index_mem_of_qualifies now entries e size doc he hd hg hsz⟩

/-- Witness for C3 (amended): the boundary directory of the
counterexample is indeed included with its entry. -/
theorem build_index_threshold_witness :
    ("Albania", buildEntry now0 "Albania" 50000 none) ∈
      build_index now0 [⟨"Albania", true, some (50000, none)⟩] :=
  (build_index_threshold now0 [⟨"Albania", true, some (50000, none)⟩]).2
    ⟨"Albania", true, some (50000, none)⟩ (by simp) 50000 none rfl rfl (Nat.le_refl _)

/-- Claim C9: a guide file that fails XML parsing still yields an index
entry for its country, carrying the sentinel defaults for every
document-derived field (counts 0, "Unknown" strings, "N/A" age), and the
failure does not remove any other qualifying country from the index (the
index has exactly one entry per qualifying directory). -/
theorem build_index_parse_failure (now : DateTime) (entries : List DirEntry)
    (name : String) (size : Nat)
    (hmem : (⟨name, true, some (size, none)⟩ : DirEntry) ∈ entries)
    (hsz : 50000 ≤ size) :
    buildEntry now name size none =
      { country := name
        file := name ++ "/guide.xml"
        st_size := size
        last_updated := isoCore now ++ "Z"
        source := "globetvapp/epg (primary)"
        channels := 0
        programmes := 0
        generated_date := "Unknown"
        latest_programme_start := "Unknown"
        age_days := none
        generator := "Unknown" } ∧
    (name, buildEntry now name size none) ∈ build_index now entries ∧
    (build_index now entries).length = (entries.filter qualifies).length := by
  refine ⟨rfl, ?_, ?_⟩
  · exact build_index_mem_of_qualifies now entries
      ⟨name, true, some (size, none)⟩ size none hmem rfl rfl hsz
  · have h := congrArg List.length (build_index_keys now entries)
    simpa [List.length_map] using h

/-- Witness for C9: one malformed-guide directory alongside a healthy
one; both countries appear in the index. -/
theorem build_index_parse_failure_witness :
    (("X", buildEntry now0 "X" 60000 none) ∈
      build_index now0 [⟨"X", true, some (60000, none)⟩, ⟨"Y", true, some (70000, some doc3)⟩]) ∧
    (build_index now0 [⟨"X", true, some (60000, none)⟩, ⟨"Y", true, some (70000, some doc3)⟩]).length
      = ([⟨"X", true, some (60000, none)⟩, ⟨"Y", true, some (70000, some doc3)⟩].filter qualifies).length :=
  ⟨(build_index_parse_failure now0
      [⟨"X", true, some (60000, none)⟩, ⟨"Y", true, some (70000, some doc3)⟩]
      "X" 60000 (by simp) (by omega)).2.1,
   (build_index_parse_failure now0
      [⟨"X", true, some (60000, none)⟩, ⟨"Y", true, some (70000, some doc3)⟩]
      "X" 60000 (by simp) (by omega)).2.2⟩

/-- The running fold of Python `max` dominates its accumulator and every
element it has consumed. -/
lemma pyMax_foldl_le : ∀ (l : List DateTime) (acc : DateTime),
    toSecs acc ≤
      toSecs (l.foldl (fun a x => if toSecs a < toSecs x then x else a) acc) ∧
    ∀ d ∈ l, toSecs d ≤
      toSecs (l.foldl (fun a x => if toSecs a < toSecs x then x else a) acc) := by
  intro l
  induction l with
  | nil => intro acc; exact ⟨le_refl _, by simp⟩
  | cons x xs ih =>
    intro acc
    simp only [List.foldl_cons]
    by_cases hx : toSecs acc < toSecs x
    · rw [if_pos hx]
      refine ⟨le_trans (le_of_lt hx) (ih x).1, ?_⟩
      intro d hd
      rcases List.mem_cons.mp hd with rfl | hd'
      · exact (ih d).1
      · exact (ih x).2 d hd'
    · rw [if_neg hx]
      refine ⟨(ih acc).1, ?_⟩
      intro d hd
      rcases List.mem_cons.mp hd with rfl | hd'
      · exact le_trans (le_of_not_lt hx) (ih acc).1
      · exact (ih acc).2 d hd'

/-- Python `max` of a nonempty datetime list dominates every element. -/
lemma pyMax_spec (l : List DateTime) (h : l ≠ []) :
    ∃ m, pyMax l = some m ∧ ∀ d ∈ l, toSecs d ≤ toSecs m := by
  cases l with
  | nil => exact absurd rfl h
  | cons x xs =>
    refine ⟨xs.foldl (fun a y => if toSecs a < toSecs y then y else a) x, rfl, ?_⟩
    intro d hd
    rcases List.mem_cons.mp hd with rfl | hd'
    · exact (pyMax_foldl_le xs d).1
    · exact (pyMax_foldl_le xs x).2 d hd'

/-- Claim C6: whenever at least one programme start parses, the entry's
`age_days` equals the whole-day floor of (now − maximum parsed start),
floored at zero, and is therefore never negative. -/
theorem build_entry_age_days (now : DateTime) (name : String) (size : Nat) (root : XmlDoc)
    (h : collectStarts root.programmes ≠ []) :
    ∃ m, pyMax (collectStarts root.programmes) = some m ∧
      (∀ d ∈ collectStarts root.programmes, toSecs d ≤ toSecs m) ∧
      (buildEntry now name size (some root)).age_days =
        some (max (Int.fdiv (toSecs now - toSecs m) 86400) 0) ∧
      ∀ a, (buildEntry now name size (some root)).age_days = some a → 0 ≤ a := by
  obtain ⟨m, hm, hmax⟩ := pyMax_spec _ h
  have hage : (buildEntry now name size (some root)).age_days =
      some (max (Int.fdiv (toSecs now - toSecs m) 86400) 0) := by
    unfold buildEntry
    dsimp only
    rw [hm]
  refine ⟨m, hm, hmax, hage, ?_⟩
  intro a ha
  rw [hage] at ha
  cases ha
  exact le_max_right _ _

/-- Witness for C6: the three-programme scenario document at the fixed
current time. -/
theorem build_entry_age_days_witness :
    collectStarts doc3.programmes ≠ [] ∧
    (∃ m, pyMax (collectStarts doc3.programmes) = some m ∧
      (∀ d ∈ collectStarts doc3.programmes, toSecs d ≤ toSecs m) ∧
      (buildEntry now0 "X" 60000 (some doc3)).age_days =
        some (max (Int.fdiv (toSecs now0 - toSecs m) 86400) 0) ∧
      ∀ a, (buildEntry now0 "X" 60000 (some doc3)).age_days = some a → 0 ≤ a) :=
  ⟨by decide, build_entry_age_days now0 "X" 60000 doc3 (by decide)⟩

/-- Counterexample for C7: the entry's `latest_programme_start` string is
produced by `isoformat()` on a timezone-aware datetime, which appends the
UTC offset: the stored value is "2026-01-03T12:00:00+00:00", not the
claimed "2026-01-03T12:00:00" (`programmes` = 3 does hold). -/
theorem build_entry_scenario_cex :
    (buildEntry now0 "X" 60000 (some doc3)).programmes = 3 ∧
    (buildEntry now0 "X" 60000 (some doc3)).latest_programme_start =
      "2026-01-03T12:00:00+00:00" ∧
    (buildEntry now0 "X" 60000 (some doc3)).latest_programme_start ≠
      "2026-01-03T12:00:00" := by
  exact ⟨rfl, rfl, by decide⟩

/-- Claim C7 (amended): the three-programme scenario yields
`programmes` = 3 and `latest_programme_start` equal to the `isoformat()`
rendering of the maximum parsed start 2026-01-03 12:00:00 UTC, i.e.
"2026-01-03T12:00:00+00:00" (offset suffix included). -/
theorem build_entry_scenario :
    (buildEntry now0 "X" 60000 (some doc3)).programmes = 3 ∧
    pyMax (collectStarts doc3.programmes) = some ⟨2026, 1, 3, 12, 0, 0⟩ ∧
    (buildEntry now0 "X" 60000 (some doc3)).latest_programme_start =
      isoUtc ⟨2026, 1, 3, 12, 0, 0⟩ ∧
    isoUtc ⟨2026, 1, 3, 12, 0, 0⟩ = "2026-01-03T12:00:00+00:00" := by
  exact ⟨rfl, rfl, rfl, rfl⟩
